import Mathlib

/-!
Shallow embedding of `src/app/main.py`: a FastAPI read-through cache over
redis.  `home` serves the root route and `fetch_fish` serves the lookup
route: it checks redis for the key, decodes a hit, and on a miss fetches the
upstream universities API, caches the decoded body with a 86400-second
expiration and returns it.  The external collaborators (redis, the `json`
module, the `requests` library) are modelled by their standard semantics as
used by the program.
-/

set_option autoImplicit false

namespace UniCache

/-- Structured JSON-like data as handled by the external `json` library: the
decoded form of a response body or of a cached value.  Numbers are modelled
as integers; no claim depends on numeric payloads. -/
inductive Json where
  | null : Json
  | bool (b : Bool) : Json
  | num (n : Int) : Json
  | str (s : String) : Json
  | arr (elems : List Json) : Json
  | obj (fields : List (String × Json)) : Json

/-- Models a raw byte string as stored in redis or received as an HTTP body,
abstracted by the two attributes the program observes: Python truthiness
(empty versus nonempty) and the result of JSON decoding.  `enc j` stands for
any (necessarily nonempty) valid JSON encoding of `j`, such as the output of
`json.dumps`; `garbage s` stands for a nonempty byte string `s` that is not
valid JSON; `empty` is the empty byte string, which is falsy and is not
valid JSON. -/
inductive Bytes where
  | empty : Bytes
  | enc (j : Json) : Bytes
  | garbage (s : String) : Bytes

/-- Models `json.dumps`: serializing `j` yields a nonempty valid JSON
encoding of `j`. -/
def Json.dumps (j : Json) : Bytes := Bytes.enc j

/-- Models `json.loads` (and the `requests` response method that decodes the
body): decoding succeeds exactly on valid JSON encodings and returns the
encoded value; the empty string and garbage raise, modelled as `none`. -/
def Json.loads : Bytes → Option Json
  | Bytes.enc j => some j
  | Bytes.empty => none
  | Bytes.garbage _ => none

/-- Python truthiness of a byte string: only the empty string is falsy. -/
def Bytes.truthy : Bytes → Bool
  | Bytes.empty => false
  | Bytes.enc _ => true
  | Bytes.garbage _ => true

/-- One redis entry: the stored byte-string value together with its remaining
time to live in seconds; `none` means the key has no expiration. -/
structure Entry where
  val : Bytes
  ttl : Option Nat

/-- Association list of redis keys and entries, first binding wins. -/
abbrev EntryList := List (String × Entry)

/-- Lookup of a key in an entry list. -/
def lookupEntry : EntryList → String → Option Entry
  | [], _ => none
  | (a, e) :: rest, k => if a = k then some e else lookupEntry rest k

/-- Overwrite (or append) the binding of a key with a fresh entry carrying
value `v` and no expiration. -/
def setEntry : EntryList → String → Bytes → EntryList
  | [], k, v => [(k, ⟨v, none⟩)]
  | (a, e) :: rest, k, v =>
      if a = k then (a, ⟨v, none⟩) :: rest else (a, e) :: setEntry rest k v

/-- Set the time to live of a key's entry to `n` seconds when the key is
bound; leave the list unchanged otherwise. -/
def expireEntry : EntryList → String → Nat → EntryList
  | [], _, _ => []
  | (a, e) :: rest, k, n =>
      if a = k then (a, ⟨e.val, some n⟩) :: rest else (a, e) :: expireEntry rest k n

/-- Models the redis database `rd`: a finite map from string keys to entries,
represented as an association list. -/
structure Store where
  entries : EntryList

/-- Models `rd.get k`: the byte-string value stored under `k`, or Python
`None` (here `none`) when the key is absent. -/
def Store.get (rd : Store) (k : String) : Option Bytes :=
  (lookupEntry rd.entries k).map Entry.val

/-- Models `rd.set k v`: bind `k` to `v`, discarding any previous value and
any previous expiration (redis SET clears the TTL). -/
def Store.set (rd : Store) (k : String) (v : Bytes) : Store :=
  ⟨setEntry rd.entries k v⟩

/-- Models `rd.expire k n`: set the TTL of `k` to `n` seconds when the key
exists. -/
def Store.expire (rd : Store) (k : String) (n : Nat) : Store :=
  ⟨expireEntry rd.entries k n⟩

/-- Full entry (value and TTL) stored under a key, used to state properties
about expirations. -/
def Store.find (rd : Store) (k : String) : Option Entry :=
  lookupEntry rd.entries k

/-- Models an upstream HTTP response as seen through the `requests` library:
a status code and a raw body.  The program never reads the status. -/
structure Response where
  status : Nat
  body : Bytes

/-- An upstream collaborator: what `requests.get` returns for each URL. -/
abbrev Upstream := String → Response

/-- URL built by `fetch_fish` for the upstream call; the lookup key is
interpolated verbatim as the value of the query parameter `country`. -/
def searchURL (university : String) : String :=
  "http://universities.hipolabs.com/search?country=" ++ university

/-- Result of one request: a normal JSON response (FastAPI success) or an
`HTTPException` carrying a status code and a detail message. -/
inductive FetchResult where
  | ok (j : Json) : FetchResult
  | httpError (status : Nat) (detail : String) : FetchResult

/-- Complete observable outcome of one `fetch_fish` call: the HTTP result,
the redis state afterwards, and the list of upstream request URLs issued, in
order. -/
structure FetchOutcome where
  result : FetchResult
  store : Store
  upstreamCalls : List String

/-- Embedding of the `else` branch of `fetch_fish` (cache miss): issue the
upstream GET for `searchURL university`, try to decode the body; on success
store the serialized value under the key, set its expiration to 86400
seconds and return the decoded value; on decode failure raise HTTP 500 with
detail "Error decoding data from FishWatch API". -/
def cacheMiss (upstream : Upstream) (rd : Store) (university : String) : FetchOutcome :=
  let data := upstream (searchURL university)
  match Json.loads data.body with
  | some json_data =>
      ⟨FetchResult.ok json_data,
        (rd.set university json_data.dumps).expire university 86400,
        [searchURL university]⟩
  | none =>
      ⟨FetchResult.httpError 500 "Error decoding data from FishWatch API", rd,
        [searchURL university]⟩

/-- Embedding of `fetch_fish`: read the key from redis; when the result is
truthy (present and nonempty) decode it and return it, raising HTTP 500 with
detail "Error decoding cached data" when decoding fails; otherwise take the
cache-miss branch. -/
def fetch_fish (upstream : Upstream) (rd : Store) (university : String) : FetchOutcome :=
  match rd.get university with
  | some cache =>
      if cache.truthy then
        match Json.loads cache with
        | some j => ⟨FetchResult.ok j, rd, []⟩
        | none => ⟨FetchResult.httpError 500 "Error decoding cached data", rd, []⟩
      else cacheMiss upstream rd university
  | none => cacheMiss upstream rd university

/-- Embedding of `home`: returns the fixed greeting, served by FastAPI with
status 200; the store is threaded unchanged to make the absence of side
effects explicit. -/
def home (rd : Store) : (Nat × String) × Store :=
  ((200, "hello worlds"), rd)

/-- Redis states reachable from an empty database through the two handlers
of this app, with arbitrary upstream behaviour and lookup keys at each
step. -/
inductive Reachable : Store → Prop where
  | init : Reachable ⟨[]⟩
  | fetch (upstream : Upstream) (k : String) (st : Store) :
      Reachable st → Reachable (fetch_fish upstream st k).store
  | visit (st : Store) : Reachable st → Reachable (home st).2

/-- Invariant: every entry of the store holds the serialization of some
decoded JSON value. -/
def goodEntries (rd : Store) : Prop :=
  ∀ a e, rd.find a = some e → ∃ j, e.val = Json.dumps j

/-! Concrete data used to exercise the theorems. -/

/-- Decoded form of the body `[{"name":"Y"}]`. -/
def sampleJson : Json := Json.arr [Json.obj [("name", Json.str "Y")]]

/-- Decoded form of the body `[{"name":"X"}]`. -/
def nameX : Json := Json.arr [Json.obj [("name", Json.str "X")]]

/-- Upstream collaborator answering every URL with status 200 and a body
encoding `sampleJson`. -/
def goodUpstream : Upstream := fun _ => ⟨200, Bytes.enc sampleJson⟩

/-- Upstream collaborator answering every URL with a non-JSON body. -/
def badUpstream : Upstream := fun _ => ⟨200, Bytes.garbage "oops"⟩

/-- Store with no entries. -/
def emptyStore : Store := ⟨[]⟩

/-- Store holding a valid encoding of `nameX` under the key "usa". -/
def usaStore : Store := ⟨[("usa", ⟨Bytes.enc nameX, none⟩)]⟩

/-- Store holding the non-JSON byte string "not json" under the key "uk". -/
def ukGarbageStore : Store := ⟨[("uk", ⟨Bytes.garbage "not json", none⟩)]⟩

/-- Store holding the empty byte string under the key "uk". -/
def ukEmptyStore : Store := ⟨[("uk", ⟨Bytes.empty, none⟩)]⟩

/-- Store holding the empty byte string under the key "de". -/
def deEmptyStore : Store := ⟨[("de", ⟨Bytes.empty, none⟩)]⟩

/-! Basic lemmas about the store operations. -/

theorem lookupEntry_setEntry_self (l : EntryList) (k : String) (v : Bytes) :
    lookupEntry (setEntry l k v) k = some ⟨v, none⟩ := by
  induction l with
  | nil => simp [setEntry, lookupEntry]
  | cons hd rest ih =>
      obtain ⟨a, e⟩ := hd
      by_cases h : a = k
      · subst h; simp [setEntry, lookupEntry]
      · simp [setEntry, lookupEntry, h, ih]

theorem lookupEntry_setEntry_ne (l : EntryList) (k a : String) (v : Bytes) (h : a ≠ k) :
    lookupEntry (setEntry l k v) a = lookupEntry l a := by
  induction l with
  | nil => simp [setEntry, lookupEntry, Ne.symm h]
  | cons hd rest ih =>
      obtain ⟨b, e⟩ := hd
      by_cases hb : b = k
      · subst hb
        have hba : b ≠ a := fun hk => h hk.symm
        simp [setEntry, lookupEntry, hba]
      · simp only [setEntry, if_neg hb]
        by_cases hba : b = a
        · simp [lookupEntry, hba]
        · simp [lookupEntry, hba, ih]

theorem lookupEntry_expireEntry_self (l : EntryList) (k : String) (n : Nat) (e : Entry)
    (h : lookupEntry l k = some e) :
    lookupEntry (expireEntry l k n) k = some ⟨e.val, some n⟩ := by
  induction l with
  | nil => simp [lookupEntry] at h
  | cons hd rest ih =>
      obtain ⟨a, e0⟩ := hd
      by_cases ha : a = k
      · subst ha
        simp only [lookupEntry, if_true, eq_self_iff_true, Option.some.injEq] at h
        subst h
        simp [expireEntry, lookupEntry]
      · simp only [lookupEntry, if_neg ha] at h
        simp [expireEntry, lookupEntry, ha, ih h]

theorem lookupEntry_expireEntry_ne (l : EntryList) (k a : String) (n : Nat) (h : a ≠ k) :
    lookupEntry (expireEntry l k n) a = lookupEntry l a := by
  induction l with
  | nil => simp [expireEntry]
  | cons hd rest ih =>
      obtain ⟨b, e⟩ := hd
      by_cases hb : b = k
      · subst hb
        have hba : b ≠ a := fun hk => h hk.symm
        simp [expireEntry, lookupEntry, hba]
      · simp only [expireEntry, if_neg hb]
        by_cases hba : b = a
        · simp [lookupEntry, hba]
        · simp [lookupEntry, hba, ih]

theorem find_set_expire_self (rd : Store) (k : String) (v : Bytes) (n : Nat) :
    ((rd.set k v).expire k n).find k = some ⟨v, some n⟩ := by
  have h := lookupEntry_setEntry_self rd.entries k v
  simpa [Store.set, Store.expire, Store.find] using
    lookupEntry_expireEntry_self (setEntry rd.entries k v) k n ⟨v, none⟩ h

theorem find_set_ne (rd : Store) (k a : String) (v : Bytes) (h : a ≠ k) :
    (rd.set k v).find a = rd.find a :=
  lookupEntry_setEntry_ne rd.entries k a v h

theorem find_expire_ne (rd : Store) (k a : String) (n : Nat) (h : a ≠ k) :
    (rd.expire k n).find a = rd.find a :=
  lookupEntry_expireEntry_ne rd.entries k a n h

theorem get_eq_find_map (rd : Store) (k : String) :
    rd.get k = (rd.find k).map Entry.val := rfl

/-! Basic lemmas about decoding and the two branches of `fetch_fish`. -/

theorem Bytes.truthy_of_loads (v : Bytes) (j : Json) (h : Json.loads v = some j) :
    v.truthy = true := by
  cases v with
  | empty => simp [Json.loads] at h
  | enc j0 => rfl
  | garbage s => simp [Json.loads] at h

theorem loads_dumps (j : Json) : Json.loads (Json.dumps j) = some j := rfl

theorem cacheMiss_eq_ok (upstream : Upstream) (rd : Store) (k : String) (j : Json)
    (h : Json.loads (upstream (searchURL k)).body = some j) :
    cacheMiss upstream rd k
      = ⟨FetchResult.ok j, (rd.set k (Json.dumps j)).expire k 86400, [searchURL k]⟩ := by
  simp only [cacheMiss, h]

theorem cacheMiss_eq_err (upstream : Upstream) (rd : Store) (k : String)
    (h : Json.loads (upstream (searchURL k)).body = none) :
    cacheMiss upstream rd k
      = ⟨FetchResult.httpError 500 "Error decoding data from FishWatch API", rd,
          [searchURL k]⟩ := by
  simp only [cacheMiss, h]

theorem cacheMiss_upstreamCalls (upstream : Upstream) (rd : Store) (k : String) :
    (cacheMiss upstream rd k).upstreamCalls = [searchURL k] := by
  cases h : Json.loads (upstream (searchURL k)).body with
  | none => rw [cacheMiss_eq_err upstream rd k h]
  | some j => rw [cacheMiss_eq_ok upstream rd k j h]

theorem fetch_fish_miss_none (upstream : Upstream) (rd : Store) (k : String)
    (h : rd.get k = none) :
    fetch_fish upstream rd k = cacheMiss upstream rd k := by
  simp only [fetch_fish, h]

theorem fetch_fish_miss_falsy (upstream : Upstream) (rd : Store) (k : String) (c : Bytes)
    (h : rd.get k = some c) (ht : c.truthy = false) :
    fetch_fish upstream rd k = cacheMiss upstream rd k := by
  simp only [fetch_fish, h, ht, Bool.false_eq_true, if_false]

theorem fetch_fish_hit (upstream : Upstream) (rd : Store) (k : String) (c : Bytes) (j : Json)
    (h : rd.get k = some c) (hj : Json.loads c = some j) :
    fetch_fish upstream rd k = ⟨FetchResult.ok j, rd, []⟩ := by
  simp only [fetch_fish, h, Bytes.truthy_of_loads c j hj, if_true, hj]

theorem fetch_fish_hit_err (upstream : Upstream) (rd : Store) (k : String) (c : Bytes)
    (h : rd.get k = some c) (ht : c.truthy = true) (hj : Json.loads c = none) :
    fetch_fish upstream rd k
      = ⟨FetchResult.httpError 500 "Error decoding cached data", rd, []⟩ := by
  simp only [fetch_fish, h, ht, if_true, hj]

theorem fetch_fish_store_cases (upstream : Upstream) (rd : Store) (k : String) :
    (fetch_fish upstream rd k).store = rd ∨
      ∃ j, (fetch_fish upstream rd k).store = (rd.set k (Json.dumps j)).expire k 86400 := by
  have hmiss : (cacheMiss upstream rd k).store = rd ∨
      ∃ j, (cacheMiss upstream rd k).store = (rd.set k (Json.dumps j)).expire k 86400 := by
    cases hl : Json.loads (upstream (searchURL k)).body with
    | none => rw [cacheMiss_eq_err upstream rd k hl]; exact Or.inl rfl
    | some j => rw [cacheMiss_eq_ok upstream rd k j hl]; exact Or.inr ⟨j, rfl⟩
  cases hg : rd.get k with
  | none => rw [fetch_fish_miss_none upstream rd k hg]; exact hmiss
  | some c =>
      cases ht : c.truthy with
      | false => rw [fetch_fish_miss_falsy upstream rd k c hg ht]; exact hmiss
      | true =>
          cases hl : Json.loads c with
          | none => rw [fetch_fish_hit_err upstream rd k c hg ht hl]; exact Or.inl rfl
          | some j => rw [fetch_fish_hit upstream rd k c j hg hl]; exact Or.inl rfl

/-! Lemmas for the reachability invariant. -/

theorem goodEntries_empty : goodEntries ⟨[]⟩ := by
  intro a e h
  simp [Store.find, lookupEntry] at h

theorem goodEntries_fetch (upstream : Upstream) (rd : Store) (k : String)
    (h : goodEntries rd) : goodEntries (fetch_fish upstream rd k).store := by
  rcases fetch_fish_store_cases upstream rd k with hc | ⟨j, hc⟩
  · rw [hc]; exact h
  · rw [hc]
    intro a e he
    by_cases hak : a = k
    · subst hak
      rw [find_set_expire_self] at he
      have hv : Entry.mk (Json.dumps j) (some 86400) = e := Option.some.inj he
      exact ⟨j, by rw [← hv]⟩
    · rw [find_expire_ne _ _ _ _ hak, find_set_ne _ _ _ _ hak] at he
      exact h a e he

theorem cacheMiss_result_ne_cache_error (upstream : Upstream) (rd : Store) (k : String) :
    (cacheMiss upstream rd k).result
      ≠ FetchResult.httpError 500 "Error decoding cached data" := by
  cases hl : Json.loads (upstream (searchURL k)).body with
  | none =>
      rw [cacheMiss_eq_err upstream rd k hl]
      intro hcon
      injection hcon with h1 h2
      exact absurd h2 (by decide)
  | some j =>
      rw [cacheMiss_eq_ok upstream rd k j hl]
      intro hcon
      exact FetchResult.noConfusion hcon

theorem no_cache_error_of_goodEntries (rd : Store) (h : goodEntries rd)
    (upstream : Upstream) (k : String) :
    (fetch_fish upstream rd k).result
      ≠ FetchResult.httpError 500 "Error decoding cached data" := by
  cases hg : rd.get k with
  | none =>
      rw [fetch_fish_miss_none upstream rd k hg]
      exact cacheMiss_result_ne_cache_error upstream rd k
  | some c =>
      have hg' := hg
      rw [get_eq_find_map] at hg'
      obtain ⟨e, he, hval⟩ := Option.map_eq_some'.mp hg'
      obtain ⟨j, hj⟩ := h k e he
      have hc : Json.loads c = some j := by
        rw [← hval, hj]
        exact loads_dumps j
      rw [fetch_fish_hit upstream rd k c j hg hc]
      intro hcon
      exact FetchResult.noConfusion hcon

/-! Claim theorems. -/

/-- C1: for every lookup key absent from the store, `fetch_fish` issues
exactly one upstream GET whose URL passes the key verbatim as the value of
the query parameter named country; when the upstream body decodes to `d`,
the call returns `d`, writes the serialization of `d` into the store under
the key, and sets that entry's expiration to exactly 86400 seconds. -/
theorem c1_cache_miss_populates (upstream : Upstream) (rd : Store) (k : String) (d : Json)
    (habs : rd.get k = none)
    (hdec : Json.loads (upstream (searchURL k)).body = some d) :
    (fetch_fish upstream rd k).upstreamCalls
        = ["http://universities.hipolabs.com/search?country=" ++ k] ∧
    (fetch_fish upstream rd k).result = FetchResult.ok d ∧
    (fetch_fish upstream rd k).store.find k = some ⟨Json.dumps d, some 86400⟩ := by
  rw [fetch_fish_miss_none upstream rd k habs, cacheMiss_eq_ok upstream rd k d hdec]
  exact ⟨rfl, rfl, find_set_expire_self rd k (Json.dumps d) 86400⟩

/-- C1 witness: instantiated at the empty store, key "canada", and an
upstream answering with an encoding of `sampleJson`. -/
theorem c1_witness :
    emptyStore.get "canada" = none ∧
    Json.loads (goodUpstream (searchURL "canada")).body = some sampleJson ∧
    ((fetch_fish goodUpstream emptyStore "canada").upstreamCalls
        = ["http://universities.hipolabs.com/search?country=" ++ "canada"] ∧
      (fetch_fish goodUpstream emptyStore "canada").result = FetchResult.ok sampleJson ∧
      (fetch_fish goodUpstream emptyStore "canada").store.find "canada"
        = some ⟨Json.dumps sampleJson, some 86400⟩) :=
  ⟨rfl, rfl, c1_cache_miss_populates goodUpstream emptyStore "canada" sampleJson rfl rfl⟩

/-- C2: for every key holding a value that decodes as JSON, `fetch_fish`
returns exactly the decoded value, issues no upstream call, and leaves the
store unchanged. -/
theorem c2_cache_hit (upstream : Upstream) (rd : Store) (k : String) (v : Bytes) (j : Json)
    (hv : rd.get k = some v) (hj : Json.loads v = some j) :
    (fetch_fish upstream rd k).result = FetchResult.ok j ∧
    (fetch_fish upstream rd k).upstreamCalls = [] ∧
    (fetch_fish upstream rd k).store = rd := by
  rw [fetch_fish_hit upstream rd k v j hv hj]
  exact ⟨rfl, rfl, rfl⟩

/-- C2 witness: instantiated at a store holding an encoding of `nameX`
under "usa". -/
theorem c2_witness :
    usaStore.get "usa" = some (Bytes.enc nameX) ∧
    Json.loads (Bytes.enc nameX) = some nameX ∧
    ((fetch_fish goodUpstream usaStore "usa").result = FetchResult.ok nameX ∧
      (fetch_fish goodUpstream usaStore "usa").upstreamCalls = [] ∧
      (fetch_fish goodUpstream usaStore "usa").store = usaStore) :=
  ⟨rfl, rfl, c2_cache_hit goodUpstream usaStore "usa" (Bytes.enc nameX) nameX rfl rfl⟩

/-- C3 counterexample: the claim quantifies over every stored value that
does not decode as JSON, but the empty byte string is such a value and is
treated as a cache miss, not as a cache decode error: with the empty string
stored under "uk", the lookup succeeds from upstream and issues an upstream
call instead of failing with HTTP 500. -/
theorem c3_counterexample :
    Json.loads Bytes.empty = none ∧
    ukEmptyStore.get "uk" = some Bytes.empty ∧
    (fetch_fish goodUpstream ukEmptyStore "uk").result
        ≠ FetchResult.httpError 500 "Error decoding cached data" ∧
    (fetch_fish goodUpstream ukEmptyStore "uk").result = FetchResult.ok sampleJson ∧
    (fetch_fish goodUpstream ukEmptyStore "uk").upstreamCalls = [searchURL "uk"] := by
  refine ⟨rfl, rfl, ?_, rfl, rfl⟩
  intro hcon
  exact FetchResult.noConfusion hcon

/-- C3 amended: for every key holding a NONEMPTY value that does not decode
as JSON, `fetch_fish` fails with HTTP 500 and detail "Error decoding cached
data", issues no upstream request, and leaves the store unchanged. -/
theorem c3_corrupt_cache (upstream : Upstream) (rd : Store) (k : String) (v : Bytes)
    (hv : rd.get k = some v) (ht : v.truthy = true) (hbad : Json.loads v = none) :
    fetch_fish upstream rd k
      = ⟨FetchResult.httpError 500 "Error decoding cached data", rd, []⟩ :=
  fetch_fish_hit_err upstream rd k v hv ht hbad

/-- C3 witness: instantiated at a store holding the non-JSON byte string
"not json" under "uk". -/
theorem c3_witness :
    ukGarbageStore.get "uk" = some (Bytes.garbage "not json") ∧
    (Bytes.garbage "not json").truthy = true ∧
    Json.loads (Bytes.garbage "not json") = none ∧
    fetch_fish goodUpstream ukGarbageStore "uk"
      = ⟨FetchResult.httpError 500 "Error decoding cached data", ukGarbageStore, []⟩ :=
  ⟨rfl, rfl, rfl,
    c3_corrupt_cache goodUpstream ukGarbageStore "uk" (Bytes.garbage "not json") rfl rfl rfl⟩

/-- C4: for every key absent from the store, when the upstream body does not
decode as JSON, `fetch_fish` fails with HTTP 500 and detail "Error decoding
data from FishWatch API" and leaves the store entirely unchanged (one
upstream request was issued). -/
theorem c4_corrupt_upstream (upstream : Upstream) (rd : Store) (k : String)
    (habs : rd.get k = none)
    (hbad : Json.loads (upstream (searchURL k)).body = none) :
    fetch_fish upstream rd k
      = ⟨FetchResult.httpError 500 "Error decoding data from FishWatch API", rd,
          [searchURL k]⟩ := by
  rw [fetch_fish_miss_none upstream rd k habs]
  exact cacheMiss_eq_err upstream rd k hbad

/-- C4 witness: instantiated at the empty store, key "fr", and an upstream
answering with a non-JSON body. -/
theorem c4_witness :
    emptyStore.get "fr" = none ∧
    Json.loads (badUpstream (searchURL "fr")).body = none ∧
    fetch_fish badUpstream emptyStore "fr"
      = ⟨FetchResult.httpError 500 "Error decoding data from FishWatch API", emptyStore,
          [searchURL "fr"]⟩ :=
  ⟨rfl, rfl, c4_corrupt_upstream badUpstream emptyStore "fr" rfl rfl⟩

/-- C5: for every key absent from the store whose upstream body decodes to
`d`, a lookup followed by a second lookup for the same key returns `d` both
times, only the first lookup issues an upstream call, and deserializing the
serialization of `d` yields `d`. -/
theorem c5_idempotent_reread (upstream : Upstream) (rd : Store) (k : String) (d : Json)
    (habs : rd.get k = none)
    (hdec : Json.loads (upstream (searchURL k)).body = some d) :
    (fetch_fish upstream rd k).result = FetchResult.ok d ∧
    (fetch_fish upstream (fetch_fish upstream rd k).store k).result = FetchResult.ok d ∧
    (fetch_fish upstream rd k).upstreamCalls = [searchURL k] ∧
    (fetch_fish upstream (fetch_fish upstream rd k).store k).upstreamCalls = [] ∧
    Json.loads (Json.dumps d) = some d := by
  have h1 : fetch_fish upstream rd k
      = ⟨FetchResult.ok d, (rd.set k (Json.dumps d)).expire k 86400, [searchURL k]⟩ := by
    rw [fetch_fish_miss_none upstream rd k habs]
    exact cacheMiss_eq_ok upstream rd k d hdec
  have hget : (fetch_fish upstream rd k).store.get k = some (Json.dumps d) := by
    rw [h1]
    show ((rd.set k (Json.dumps d)).expire k 86400).get k = some (Json.dumps d)
    rw [get_eq_find_map, find_set_expire_self]
    rfl
  have h2 := fetch_fish_hit upstream (fetch_fish upstream rd k).store k (Json.dumps d) d
    hget (loads_dumps d)
  exact ⟨by rw [h1], by rw [h2], by rw [h1], by rw [h2], rfl⟩

/-- C5 witness: instantiated at the empty store, key "canada", and an
upstream answering with an encoding of `sampleJson`. -/
theorem c5_witness :
    emptyStore.get "canada" = none ∧
    ((fetch_fish goodUpstream emptyStore "canada").result = FetchResult.ok sampleJson ∧
      (fetch_fish goodUpstream (fetch_fish goodUpstream emptyStore "canada").store
          "canada").result = FetchResult.ok sampleJson ∧
      (fetch_fish goodUpstream emptyStore "canada").upstreamCalls = [searchURL "canada"] ∧
      (fetch_fish goodUpstream (fetch_fish goodUpstream emptyStore "canada").store
          "canada").upstreamCalls = [] ∧
      Json.loads (Json.dumps sampleJson) = some sampleJson) :=
  ⟨rfl, c5_idempotent_reread goodUpstream emptyStore "canada" sampleJson rfl rfl⟩

/-- C6: on a cache miss the upstream status code is never inspected (the
outcome with any status equals the outcome with status 200), every
JSON-decodable body — whatever its shape — is returned and cached as-is,
only a non-decodable body raises the upstream decode error, and the lookup
key (even empty) is passed verbatim as the country query parameter. -/
theorem c6_pass_through (rd : Store) (k : String) (status : Nat) (body : Bytes)
    (habs : rd.get k = none) :
    fetch_fish (fun _ => ⟨status, body⟩) rd k
        = fetch_fish (fun _ => ⟨200, body⟩) rd k ∧
    (∀ j, Json.loads body = some j →
      (fetch_fish (fun _ => ⟨status, body⟩) rd k).result = FetchResult.ok j ∧
      (fetch_fish (fun _ => ⟨status, body⟩) rd k).store.get k = some (Json.dumps j)) ∧
    (Json.loads body = none →
      (fetch_fish (fun _ => ⟨status, body⟩) rd k).result
        = FetchResult.httpError 500 "Error decoding data from FishWatch API") ∧
    (fetch_fish (fun _ => ⟨status, body⟩) rd k).upstreamCalls
        = ["http://universities.hipolabs.com/search?country=" ++ k] := by
  have hm : ∀ st : Nat, fetch_fish (fun _ => (⟨st, body⟩ : Response)) rd k
      = cacheMiss (fun _ => ⟨st, body⟩) rd k :=
    fun st => fetch_fish_miss_none _ rd k habs
  refine ⟨?_, ?_, ?_, ?_⟩
  · rw [hm status, hm 200]
    cases hl : Json.loads body with
    | none => rw [cacheMiss_eq_err _ rd k hl, cacheMiss_eq_err _ rd k hl]
    | some j => rw [cacheMiss_eq_ok _ rd k j hl, cacheMiss_eq_ok _ rd k j hl]
  · intro j hj
    rw [hm status, cacheMiss_eq_ok _ rd k j hj]
    refine ⟨rfl, ?_⟩
    show ((rd.set k (Json.dumps j)).expire k 86400).get k = some (Json.dumps j)
    rw [get_eq_find_map, find_set_expire_self]
    rfl
  · intro hnone
    rw [hm status, cacheMiss_eq_err _ rd k hnone]
  · rw [hm status, cacheMiss_upstreamCalls]
    rfl

/-- C6 witness: instantiated at the empty store, the empty country string, a
non-2xx status 404, and an empty-list body, which is cached and returned
as-is. -/
theorem c6_witness :
    emptyStore.get "" = none ∧
    ((fetch_fish (fun _ => ⟨404, Bytes.enc (Json.arr [])⟩) emptyStore "").result
        = FetchResult.ok (Json.arr []) ∧
      (fetch_fish (fun _ => ⟨404, Bytes.enc (Json.arr [])⟩) emptyStore "").store.get ""
        = some (Json.dumps (Json.arr []))) ∧
    (fetch_fish (fun _ => ⟨404, Bytes.enc (Json.arr [])⟩) emptyStore "").upstreamCalls
        = ["http://universities.hipolabs.com/search?country=" ++ ""] :=
  ⟨rfl,
    (c6_pass_through emptyStore "" 404 (Bytes.enc (Json.arr [])) rfl).2.1 (Json.arr []) rfl,
    (c6_pass_through emptyStore "" 404 (Bytes.enc (Json.arr [])) rfl).2.2.2⟩

/-- C7: in every store reachable from the empty store through this app's
handlers, every cache entry is the serialization of some decoded value, and
consequently no lookup on such a store can fail with the cache decode
error. -/
theorem c7_reachable_invariant (st : Store) (h : Reachable st) :
    (∀ k e, st.find k = some e → ∃ j, e.val = Json.dumps j) ∧
    (∀ upstream k, (fetch_fish upstream st k).result
        ≠ FetchResult.httpError 500 "Error decoding cached data") := by
  have hg : goodEntries st := by
    induction h with
    | init => exact goodEntries_empty
    | fetch upstream k st h ih => exact goodEntries_fetch upstream st k ih
    | visit st h ih => exact ih
  exact ⟨hg, fun upstream k => no_cache_error_of_goodEntries st hg upstream k⟩

/-- C7 witness: the store produced by one lookup of "canada" from the empty
store is reachable, and a further lookup on it cannot raise the cache
decode error. -/
theorem c7_witness :
    (fetch_fish goodUpstream (fetch_fish goodUpstream emptyStore "canada").store
        "canada").result ≠ FetchResult.httpError 500 "Error decoding cached data" :=
  (c7_reachable_invariant (fetch_fish goodUpstream emptyStore "canada").store
      (Reachable.fetch goodUpstream "canada" emptyStore Reachable.init)).2
    goodUpstream "canada"

/-- C8: the root operation returns the fixed greeting "hello worlds" with
FastAPI success status 200 and leaves the store identical; it cannot
fail. -/
theorem c8_home_fixed_greeting (rd : Store) :
    home rd = ((200, "hello worlds"), rd) := rfl

/-- C9: a key holding the empty byte string is treated by `fetch_fish`
exactly as a cache miss: the upstream is fetched, and on a decodable
upstream body the entry is overwritten with the fresh serialized value and
its 86400-second expiration. -/
theorem c9_empty_value_is_miss (upstream : Upstream) (rd : Store) (k : String)
    (h : rd.get k = some Bytes.empty) :
    fetch_fish upstream rd k = cacheMiss upstream rd k ∧
    (fetch_fish upstream rd k).upstreamCalls = [searchURL k] ∧
    (∀ d, Json.loads (upstream (searchURL k)).body = some d →
      (fetch_fish upstream rd k).store.find k = some ⟨Json.dumps d, some 86400⟩ ∧
      (fetch_fish upstream rd k).result = FetchResult.ok d) := by
  have hm := fetch_fish_miss_falsy upstream rd k Bytes.empty h rfl
  refine ⟨hm, by rw [hm, cacheMiss_upstreamCalls], ?_⟩
  intro d hd
  rw [hm, cacheMiss_eq_ok upstream rd k d hd]
  exact ⟨find_set_expire_self rd k (Json.dumps d) 86400, rfl⟩

/-- C9 witness: instantiated at a store holding the empty byte string under
"de" and an upstream answering with an encoding of `sampleJson`. -/
theorem c9_witness :
    deEmptyStore.get "de" = some Bytes.empty ∧
    fetch_fish goodUpstream deEmptyStore "de" = cacheMiss goodUpstream deEmptyStore "de" ∧
    (fetch_fish goodUpstream deEmptyStore "de").store.find "de"
      = some ⟨Json.dumps sampleJson, some 86400⟩ :=
  ⟨rfl, (c9_empty_value_is_miss goodUpstream deEmptyStore "de" rfl).1,
    ((c9_empty_value_is_miss goodUpstream deEmptyStore "de" rfl).2.2 sampleJson rfl).1⟩

/-- C10: a lookup for key `k` modifies at most the store entry for `k`:
every entry under any other key is unchanged, whichever branch the lookup
takes. -/
theorem c10_frame (upstream : Upstream) (rd : Store) (k a : String) (h : a ≠ k) :
    (fetch_fish upstream rd k).store.find a = rd.find a := by
  rcases fetch_fish_store_cases upstream rd k with hc | ⟨j, hc⟩
  · rw [hc]
  · rw [hc, find_expire_ne _ _ _ _ h, find_set_ne _ _ _ _ h]

/-- C10 witness: a lookup for "canada" on a store holding an entry under
"usa" leaves the "usa" entry unchanged. -/
theorem c10_witness :
    ("usa" : String) ≠ "canada" ∧
    (fetch_fish goodUpstream usaStore "canada").store.find "usa" = usaStore.find "usa" :=
  ⟨by decide, c10_frame goodUpstream usaStore "canada" "usa" (by decide)⟩

end UniCache
